import Mathlib

/-!
Shallow embedding of the chatbag client's message-list logic.

The definitions below are translated from `src/hooks/useMessages.ts`
(optimistic send, reconciliation, failure re-tagging, retry, realtime
insert merge, fetch completion), `src/hooks/useTyping.ts` (typing set)
and the chat view component's `handleRetryMessage`.

Modelling conventions:
* JavaScript strings are Lean `String`s; the JS string operations
  (`startsWith`, `includes`, `trim`, prefix `replace`) are re-implemented
  by structural recursion over the character list so that all predicates
  are executable and kernel-decidable.
* ISO-8601 `created_at` timestamps compare lexicographically exactly as
  they compare chronologically, so they are abstracted as `Nat`.
* React `setMessages` state updates become pure functions
  `List Message → List Message`; the asynchronous completion handlers of
  `sendMessage` / `retryMessage` become pure functions returning the
  updated list together with the retry request they schedule (if any),
  since `setTimeout(... retryMessage ..., 2000)` is the only effect of
  those handlers besides the state update.
-/

namespace Chatbag

/-- JS `prefix-of` on character lists (`String.prototype.startsWith`). -/
def charsLeadWith : List Char → List Char → Bool
  | [], _ => true
  | _ :: _, [] => false
  | a :: as, b :: bs => a == b && charsLeadWith as bs

/-- JS `String.prototype.includes`: some suffix of the text starts with `sub`. -/
def charsInclude (sub : List Char) : List Char → Bool
  | [] => charsLeadWith sub []
  | c :: cs => charsLeadWith sub (c :: cs) || charsInclude sub cs

/-- JS `s.startsWith(pre)`. -/
def strBeginsWith (s pre : String) : Bool := charsLeadWith pre.data s.data

/-- JS `s.includes(sub)`. -/
def strIncludes (s sub : String) : Bool := charsInclude sub.data s.data

/-- A character the JS `trim` removes (the whitespace actually occurring in chat input). -/
def charIsSpace (c : Char) : Bool := c == ' ' || c == '\t' || c == '\n' || c == '\r'

/-- JS `s.trim()`. -/
def jsTrim (s : String) : String :=
  ⟨((s.data.dropWhile charIsSpace).reverse.dropWhile charIsSpace).reverse⟩

/-- Closed content-kind tag of a message (`type` column). -/
inductive MsgType where
  | text
  | image
  | ai
  deriving DecidableEq, Repr

/-- Closed mood tag of a message (`mood` column). -/
inductive Mood where
  | happy
  | sad
  | angry
  | anxious
  | neutral
  deriving DecidableEq, Repr

/-- Denormalized sender summary attached to a visible message
(`users` row projection: id, name, username, avatar_url). -/
structure Sender where
  id : String
  name : String
  username : String
  avatar_url : String
  deriving DecidableEq, Repr

/-- A message of the visible list (the `Message` interface of
`src/lib/supabase.ts`): identifier, conversation, sender, content,
kind, mood, creation timestamp, optional sender summary. -/
structure Message where
  id : String
  chat_id : String
  sender_id : String
  content : String
  type : MsgType
  mood : Mood
  created_at : Nat
  sender : Option Sender
  deriving DecidableEq, Repr

/-- A row as returned by the backing store for an insert or query
(`select('id, content, created_at, sender_id, type, mood')`). -/
structure ServerRow where
  id : String
  content : String
  created_at : Nat
  sender_id : String
  type : MsgType
  mood : Mood
  deriving DecidableEq, Repr

/-- The identifiers of the visible list are pairwise distinct. -/
def idsNodup (l : List Message) : Prop := (l.map Message.id).Nodup

instance (l : List Message) : Decidable (idsNodup l) := by
  unfold idsNodup; infer_instance

/-- The visible list is in ascending creation-time order. -/
def timeSorted (l : List Message) : Prop :=
  l.Pairwise (fun a b => a.created_at ≤ b.created_at)

instance (l : List Message) : Decidable (timeSorted l) := by
  unfold timeSorted; infer_instance

/-! ### The realtime insert merge (`subscribeToMessages`, useMessages.ts 170–186) -/

/-- The removal test of the merge: a provisional (`temp-` prefixed) entry
with the incoming row's content and sender. -/
def matchesProvisional (incoming msg : Message) : Bool :=
  strBeginsWith msg.id "temp-" && msg.content == incoming.content &&
    msg.sender_id == incoming.sender_id

/-- The `setMessages(prev => ...)` updater run for a realtime INSERT
notification: drop any optimistic entry with the same content and sender,
then append the incoming row unless its identifier is already present. -/
def mergeRealtimeInsert (incoming : Message) (prev : List Message) : List Message :=
  let filteredPrev := prev.filter (fun msg => ! matchesProvisional incoming msg)
  if filteredPrev.any (fun msg => msg.id == incoming.id) then filteredPrev
  else filteredPrev ++ [incoming]

/-- Merging a stream of insert notifications in arrival order. -/
def mergeAll (ms : List Message) (l : List Message) : List Message :=
  ms.foldl (fun acc m => mergeRealtimeInsert m acc) l

/-! ### Optimistic send (`sendMessage`, useMessages.ts 203–313) -/

/-- `temp-${Date.now()}-${Math.random()}`: the nonce abstracts the
timestamp-and-random suffix. -/
def mkOptimisticId (nonce : String) : String := "temp-" ++ nonce

/-- The optimistic message appended synchronously on submit. -/
def mkOptimisticMessage (chatId : String) (u : Sender) (trimmed : String)
    (typ : MsgType) (mood : Mood) (nonce : String) (now : Nat) : Message :=
  { id := mkOptimisticId nonce, chat_id := chatId, sender_id := u.id,
    content := trimmed, type := typ, mood := mood, created_at := now,
    sender := some u }

/-- The synchronous prefix of `sendMessage`: the guard
`if (!chatId || !user || !content.trim()) return;` and the optimistic
append. Returns the new visible list and whether a create request is
issued to the backing store. -/
def sendMessageStart (chatId : Option String) (user : Option Sender)
    (content : String) (typ : MsgType) (mood : Mood) (nonce : String)
    (now : Nat) (prev : List Message) : List Message × Bool :=
  match chatId, user with
  | none, _ => (prev, false)
  | _, none => (prev, false)
  | some cid, some u =>
    if jsTrim content == "" then (prev, false)
    else (prev ++ [mkOptimisticMessage cid u (jsTrim content) typ mood nonce now], true)

/-- The confirmed message built from the create response
(`{ ...data, sender }`, useMessages.ts 267–279 and 352–364). The
response projection omits `chat_id`; the row was inserted into `chatId`,
which we record. -/
def confirmedFromRow (chatId : String) (row : ServerRow) (u : Sender) : Message :=
  { id := row.id, chat_id := chatId, sender_id := row.sender_id,
    content := row.content, type := row.type, mood := row.mood,
    created_at := row.created_at, sender := some u }

/-- Success reconciliation (useMessages.ts 281–287): replace the
optimistic entry, located by its identifier, with the confirmed row,
in place. -/
def reconcileSuccess (optimisticId : String) (confirmed : Message)
    (prev : List Message) : List Message :=
  prev.map (fun msg => if msg.id = optimisticId then confirmed else msg)

/-- Identifier re-tag applied on failure: `failed-${optimisticId}`. -/
def failedId (optimisticId : String) : String := "failed-" ++ optimisticId

/-- Failure re-tagging (useMessages.ts 292–303): the optimistic entry is
re-identified as failed and its content rewritten with the failure marker. -/
def markSendFailed (optimisticId trimmedContent : String)
    (prev : List Message) : List Message :=
  prev.map (fun msg =>
    if msg.id = optimisticId then
      { msg with id := failedId optimisticId,
                 content := "❌ Failed to send: " ++ trimmedContent,
                 type := MsgType.text }
    else msg)

/-- A scheduled automatic retry (`setTimeout(() => retryMessage(...), delayMs)`). -/
structure RetryRequest where
  content : String
  type : MsgType
  mood : Mood
  originalOptimisticId : String
  delayMs : Nat
  deriving DecidableEq, Repr

/-- The fixed automatic-retry delay (useMessages.ts 310: `}, 2000);`). -/
def retryDelayMs : Nat := 2000

/-- The whole `catch` block of `sendMessage` (useMessages.ts 288–312):
re-tag the entry as failed, and schedule the single automatic retry only
when the error message contains `'timeout'`. -/
def sendFailure (optimisticId trimmedContent : String) (typ : MsgType)
    (mood : Mood) (errMsg : String) (prev : List Message) :
    List Message × Option RetryRequest :=
  (markSendFailed optimisticId trimmedContent prev,
   if strIncludes errMsg "timeout" then
     some ⟨trimmedContent, typ, mood, optimisticId, retryDelayMs⟩
   else none)

/-! ### Automatic retry (`retryMessage`, useMessages.ts 315–385) -/

/-- The "retrying" content rewrite applied when the automatic retry starts
(useMessages.ts 326–332). -/
def markRetrying (fid content : String) (prev : List Message) : List Message :=
  prev.map (fun msg =>
    if msg.id = fid then { msg with content := "🔄 Retrying: " ++ content } else msg)

/-- Retry success (useMessages.ts 366–371): replace the failed entry,
located by its `failed-` identifier, with the confirmed row, in place. -/
def retrySuccess (fid : String) (confirmed : Message)
    (prev : List Message) : List Message :=
  prev.map (fun msg => if msg.id = fid then confirmed else msg)

/-- The whole `catch` block of `retryMessage` (useMessages.ts 373–384):
rewrite the entry's content with the permanent-failure marker. The block
contains no `setTimeout`, so no further retry request is produced. -/
def retryFailure (fid content : String) (prev : List Message) :
    List Message × Option RetryRequest :=
  (prev.map (fun msg =>
     if msg.id = fid then { msg with content := "💀 Failed permanently: " ++ content }
     else msg),
   none)

/-! ### Fetch completion (`fetchMessages`, useMessages.ts 39–128) -/

/-- Completion handler of a `fetchMessages` query: the rows (fetched in
descending creation order for the conversation the query was issued
against) are reversed and installed with `setMessages(...)`
unconditionally — the handler does not compare the response's
conversation with the currently open one. -/
def applyFetchResponse (rows : List Message) : List Message := rows.reverse

/-! ### Manual retry affordance (`handleRetryMessage`, ChatView) -/

/-- JS `content.replace(/^(Failed to send: |Failed permanently: )/, '')`:
strip the first alternative that matches at the start, else leave
the string unchanged. -/
def stripFailureMarker (content : String) : String :=
  if strBeginsWith content "Failed to send: " then
    ⟨content.data.drop "Failed to send: ".data.length⟩
  else if strBeginsWith content "Failed permanently: " then
    ⟨content.data.drop "Failed permanently: ".data.length⟩
  else content

/-- The send issued by a manual retry: content, kind and mood passed to
`sendMessage`. -/
structure RetrySubmission where
  content : String
  type : MsgType
  mood : Mood
  deriving DecidableEq, Repr

/-- `handleRetryMessage` of the chat view: guard
`if (!message.id.startsWith('failed-') || !message.content.includes('Failed to send:')) return;`
then re-submit the (supposedly stripped) content with the entry's kind
and mood. `none` means the click does nothing. -/
def handleRetryMessage (m : Message) : Option RetrySubmission :=
  if !(strBeginsWith m.id "failed-") || !(strIncludes m.content "Failed to send:") then
    none
  else some ⟨stripFailureMarker m.content, m.type, m.mood⟩

/-! ### Typing indicator (`useTyping.ts` 23–49) -/

/-- An entry of the locally-held typing set. -/
structure TypingUser where
  id : String
  name : String
  avatar_url : String
  deriving DecidableEq, Repr

/-- Local typing-indicator state: the visible typing set and the pending
`setTimeout` removals, each recorded as (absolute fire time, user id). -/
structure TypingState where
  typingUsers : List TypingUser
  timers : List (Nat × String)
  deriving DecidableEq, Repr

/-- An inbound broadcast typing signal. -/
structure Signal where
  time : Nat
  uid : String
  uname : String
  uavatar : String
  is_typing : Bool
  deriving DecidableEq, Repr

/-- The broadcast handler of `useTyping`: ignore own signals; on
`typing=true` append the participant if absent and schedule an
unconditional removal 3000 ms later; on `typing=false` remove the
participant immediately. -/
def onTypingSignal (selfId : String) (sig : Signal) (s : TypingState) : TypingState :=
  if sig.uid == selfId then s
  else if sig.is_typing then
    { typingUsers :=
        if s.typingUsers.any (fun u => u.id == sig.uid) then s.typingUsers
        else s.typingUsers ++ [⟨sig.uid, sig.uname, sig.uavatar⟩],
      timers := s.timers ++ [(sig.time + 3000, sig.uid)] }
  else
    { typingUsers := s.typingUsers.filter (fun u => u.id != sig.uid),
      timers := s.timers }

/-- Fire every pending removal timer due at or before time `t`: each due
timer's callback filters its user out of the typing set. -/
def fireDue (t : Nat) (s : TypingState) : TypingState :=
  { typingUsers := s.typingUsers.filter
      (fun u => ! s.timers.any (fun p => decide (p.1 ≤ t) && p.2 == u.id)),
    timers := s.timers.filter (fun p => ! decide (p.1 ≤ t)) }

/-- Event-loop run: process the signals in order (timers strictly earlier
than a signal fire before it), then fire everything due by the query time
`q` and read the typing set. -/
def typingRun (selfId : String) : TypingState → List Signal → Nat → List TypingUser
  | s, [], q => (fireDue q s).typingUsers
  | s, sig :: rest, q =>
    typingRun selfId (onTypingSignal selfId sig (fireDue (sig.time - 1) s)) rest q

/-! ### Helper lemmas -/

/-- Substituting one target identifier by a fresh one keeps a duplicate-free
identifier list duplicate-free. -/
lemma nodup_map_subst (ids : List String) (target newId : String)
    (h : ids.Nodup) (hfresh : newId ∉ ids) :
    (ids.map (fun s => if s = target then newId else s)).Nodup := by
  induction ids with
  | nil => simp
  | cons a t ih =>
    rw [List.map_cons, List.nodup_cons]
    rw [List.nodup_cons] at h
    refine ⟨?_, ih h.2 (fun hmem => hfresh (List.mem_cons_of_mem _ hmem))⟩
    intro hmem
    rcases List.mem_map.1 hmem with ⟨b, hb, hbe⟩
    by_cases hbt : b = target
    · rw [if_pos hbt] at hbe
      by_cases hat : a = target
      · have hba : b = a := hbt.trans hat.symm
        exact h.1 (by rwa [hba] at hb)
      · rw [if_neg hat] at hbe
        exact hfresh (by rw [hbe]; exact List.mem_cons_self a t)
    · rw [if_neg hbt] at hbe
      by_cases hat : a = target
      · rw [if_pos hat] at hbe
        exact hfresh (by rw [← hbe]; exact List.mem_cons_of_mem _ hb)
      · rw [if_neg hat] at hbe
        exact h.1 (by rwa [hbe] at hb)

/-- Replacing the (unique) entry carrying `target` by an entry with a fresh
identifier preserves identifier uniqueness. -/
lemma idsNodup_map_replace (l : List Message) (target : String)
    (f : Message → Message) (newId : String) (hf : ∀ m, (f m).id = newId)
    (h : idsNodup l) (hfresh : newId ∉ l.map Message.id) :
    idsNodup (l.map fun m => if m.id = target then f m else m) := by
  unfold idsNodup at *
  have hmaps : (l.map fun m => if m.id = target then f m else m).map Message.id
      = (l.map Message.id).map (fun s => if s = target then newId else s) := by
    simp only [List.map_map]
    apply List.map_congr_left
    intro m _
    by_cases hmt : m.id = target
    · simp [Function.comp, hmt, hf]
    · simp [Function.comp, hmt]
  rw [hmaps]
  exact nodup_map_subst _ target newId h hfresh

/-- When no entry carries `target`, the replacement map is the identity. -/
lemma map_replace_eq_self (l : List Message) (target : String)
    (f : Message → Message) (habs : target ∉ l.map Message.id) :
    (l.map fun m => if m.id = target then f m else m) = l := by
  conv_rhs => rw [← List.map_id l]
  apply List.map_congr_left
  intro m hm
  have hne : m.id ≠ target := fun he => habs (he ▸ List.mem_map_of_mem Message.id hm)
  simp [hne]

/-- Every entry of the merged list is an old entry or the incoming row. -/
lemma mem_mergeRealtimeInsert {incoming m : Message} {prev : List Message}
    (hm : m ∈ mergeRealtimeInsert incoming prev) : m ∈ prev ∨ m = incoming := by
  simp only [mergeRealtimeInsert] at hm
  split at hm
  · exact Or.inl (List.mem_of_mem_filter hm)
  · rcases List.mem_append.1 hm with h | h
    · exact Or.inl (List.mem_of_mem_filter h)
    · simp only [List.mem_singleton] at h
      exact Or.inr h

/-- As long as the incoming row is itself not provisional, no entry of the
merged list is a provisional duplicate of it. -/
lemma mergeRealtimeInsert_no_provisional {incoming : Message}
    (hinc : strBeginsWith incoming.id "temp-" = false) (prev : List Message) :
    ∀ m ∈ mergeRealtimeInsert incoming prev,
      matchesProvisional incoming m = false := by
  intro m hm
  simp only [mergeRealtimeInsert] at hm
  split at hm
  · have := List.of_mem_filter hm
    simpa using this
  · rcases List.mem_append.1 hm with h | h
    · have := List.of_mem_filter h
      simpa using this
    · simp only [List.mem_singleton] at h
      subst h
      simp [matchesProvisional, hinc]

/-- The realtime merge preserves identifier uniqueness, unconditionally. -/
lemma idsNodup_mergeRealtimeInsert (incoming : Message) (prev : List Message)
    (h : idsNodup prev) : idsNodup (mergeRealtimeInsert incoming prev) := by
  have hfil : idsNodup (prev.filter (fun msg => ! matchesProvisional incoming msg)) := by
    unfold idsNodup at *
    exact h.sublist (List.Sublist.map Message.id (List.filter_sublist prev))
  simp only [mergeRealtimeInsert]
  split
  · exact hfil
  · rename_i hany
    unfold idsNodup at *
    rw [List.map_append, List.nodup_append]
    refine ⟨hfil, by simp, ?_⟩
    intro s hs
    rcases List.mem_map.1 hs with ⟨b, hb, hbe⟩
    simp only [List.map_cons, List.map_nil, List.mem_singleton]
    intro he
    apply hany
    exact List.any_eq_true.2 ⟨b, hb, by simp [hbe ▸ he]⟩

/-- The incoming row's identifier is present after the merge. -/
lemma mem_id_mergeRealtimeInsert (incoming : Message) (prev : List Message) :
    incoming.id ∈ (mergeRealtimeInsert incoming prev).map Message.id := by
  simp only [mergeRealtimeInsert]
  split
  · rename_i hany
    rcases List.any_eq_true.1 hany with ⟨b, hb, hbe⟩
    simp only [beq_iff_eq] at hbe
    exact List.mem_map.2 ⟨b, hb, hbe⟩
  · simp

/-- If the list holds no provisional duplicate of the incoming row and the
row's identifier is already present, the merge is a no-op. -/
lemma mergeRealtimeInsert_eq_self {incoming : Message} {prev : List Message}
    (hnm : ∀ m ∈ prev, matchesProvisional incoming m = false)
    (hmem : incoming.id ∈ prev.map Message.id) :
    mergeRealtimeInsert incoming prev = prev := by
  have hfil : prev.filter (fun msg => ! matchesProvisional incoming msg) = prev := by
    apply List.filter_eq_self.2
    intro m hm
    simp [hnm m hm]
  simp only [mergeRealtimeInsert, hfil]
  rw [if_pos]
  rcases List.mem_map.1 hmem with ⟨b, hb, hbe⟩
  exact List.any_eq_true.2 ⟨b, hb, by simp [hbe]⟩

/-- Merging a row that is at least as recent as every visible entry keeps
the list time-sorted. -/
lemma timeSorted_mergeRealtimeInsert {incoming : Message} {prev : List Message}
    (h : timeSorted prev)
    (hle : ∀ a ∈ prev, a.created_at ≤ incoming.created_at) :
    timeSorted (mergeRealtimeInsert incoming prev) := by
  have hfil : timeSorted (prev.filter (fun msg => ! matchesProvisional incoming msg)) :=
    (List.Pairwise.sublist (List.filter_sublist prev) h)
  simp only [mergeRealtimeInsert]
  split
  · exact hfil
  · unfold timeSorted at *
    rw [List.pairwise_append]
    refine ⟨hfil, by simp, ?_⟩
    intro a ha b hb
    simp only [List.mem_singleton] at hb
    subst hb
    exact hle a (List.mem_of_mem_filter ha)

/-- Merging a stream of notifications whose timestamps ascend, in arrival
order, into a time-sorted list that precedes all of them, keeps the list
time-sorted. -/
lemma timeSorted_mergeAll : ∀ (ms l : List Message),
    timeSorted l →
    (∀ a ∈ l, ∀ m ∈ ms, a.created_at ≤ m.created_at) →
    ms.Pairwise (fun a b => a.created_at ≤ b.created_at) →
    timeSorted (mergeAll ms l)
  | [], _, hl, _, _ => hl
  | m :: rest, l, hl, hlm, hms => by
    have hrest := List.pairwise_cons.1 hms
    have hstep : timeSorted (mergeRealtimeInsert m l) :=
      timeSorted_mergeRealtimeInsert hl (fun a ha => hlm a ha m (List.mem_cons_self _ _))
    have hnext : ∀ a ∈ mergeRealtimeInsert m l, ∀ f ∈ rest,
        a.created_at ≤ f.created_at := by
      intro a ha f hf
      rcases mem_mergeRealtimeInsert ha with hcase | hcase
      · exact hlm a hcase f (List.mem_cons_of_mem _ hf)
      · subst hcase
        exact hrest.1 f hf
    show timeSorted (mergeAll rest (mergeRealtimeInsert m l))
    exact timeSorted_mergeAll rest (mergeRealtimeInsert m l) hstep hnext hrest.2

/-- Reconciling a list that ends in the optimistic entry replaces exactly
that entry. -/
lemma reconcileSuccess_append_temp (l₀ : List Message) (tempM confirmed : Message)
    (htfresh : tempM.id ∉ l₀.map Message.id) :
    reconcileSuccess tempM.id confirmed (l₀ ++ [tempM]) = l₀ ++ [confirmed] := by
  unfold reconcileSuccess
  rw [List.map_append]
  congr 1
  · exact map_replace_eq_self l₀ tempM.id (fun _ => confirmed) htfresh
  · simp

/-- Both interleavings of a send's direct reply and the push notification
for the same row produce the same list: the other provisional duplicates
filtered out, followed by the confirmed row. -/
lemma interleaving_eq (l₀ : List Message) (tempM confirmed : Message)
    (htemp : strBeginsWith tempM.id "temp-" = true)
    (hcontent : tempM.content = confirmed.content)
    (hsender : tempM.sender_id = confirmed.sender_id)
    (hconf : strBeginsWith confirmed.id "temp-" = false)
    (htfresh : tempM.id ∉ l₀.map Message.id)
    (hcfresh : confirmed.id ∉ l₀.map Message.id) :
    mergeRealtimeInsert confirmed (reconcileSuccess tempM.id confirmed (l₀ ++ [tempM]))
      = l₀.filter (fun msg => ! matchesProvisional confirmed msg) ++ [confirmed] ∧
    reconcileSuccess tempM.id confirmed (mergeRealtimeInsert confirmed (l₀ ++ [tempM]))
      = l₀.filter (fun msg => ! matchesProvisional confirmed msg) ++ [confirmed] := by
  have hidne : confirmed.id ≠ tempM.id := by
    intro he
    rw [he] at hconf
    rw [htemp] at hconf
    exact absurd hconf (by simp)
  have hmatch : matchesProvisional confirmed tempM = true := by
    simp [matchesProvisional, htemp, hcontent, hsender]
  have hmatchc : matchesProvisional confirmed confirmed = false := by
    simp [matchesProvisional, hconf]
  constructor
  · rw [reconcileSuccess_append_temp l₀ tempM confirmed htfresh]
    simp only [mergeRealtimeInsert, List.filter_append]
    have hfc : List.filter (fun msg => ! matchesProvisional confirmed msg) [confirmed]
        = [confirmed] := by simp [hmatchc]
    rw [hfc, if_pos]
    exact List.any_eq_true.2 ⟨confirmed, List.mem_append_right _ (List.mem_singleton.2 rfl),
      by simp⟩
  · have hmerge : mergeRealtimeInsert confirmed (l₀ ++ [tempM])
        = l₀.filter (fun msg => ! matchesProvisional confirmed msg) ++ [confirmed] := by
      simp only [mergeRealtimeInsert, List.filter_append]
      have hft : List.filter (fun msg => ! matchesProvisional confirmed msg) [tempM]
          = [] := by simp [hmatch]
      rw [hft, List.append_nil]
      rw [if_neg]
      intro hany
      rcases List.any_eq_true.1 hany with ⟨b, hb, hbe⟩
      simp only [beq_iff_eq] at hbe
      exact hcfresh (List.mem_map.2 ⟨b, List.mem_of_mem_filter hb, hbe⟩)
    rw [hmerge]
    unfold reconcileSuccess
    rw [List.map_append]
    congr 1
    · apply map_replace_eq_self
      intro hmem
      rcases List.mem_map.1 hmem with ⟨b, hb, hbe⟩
      exact htfresh (List.mem_map.2 ⟨b, List.mem_of_mem_filter hb, hbe⟩)
    · simp [hidne]

/-- Filtering the typing set cannot add a participant. -/
lemma absent_filter {l : List TypingUser} {p : TypingUser → Bool} {u : String}
    (h : u ∉ l.map TypingUser.id) : u ∉ (l.filter p).map TypingUser.id := by
  intro hmem
  rcases List.mem_map.1 hmem with ⟨tu, htu, he⟩
  exact h (List.mem_map.2 ⟨tu, List.mem_of_mem_filter htu, he⟩)

/-- A pending removal timer that is due removes its participant. -/
lemma fireDue_removes_due {t ft : Nat} {u : String} {s : TypingState}
    (htm : (ft, u) ∈ s.timers) (hle : ft ≤ t) :
    u ∉ (fireDue t s).typingUsers.map TypingUser.id := by
  intro hmem
  rcases List.mem_map.1 hmem with ⟨tu, htu, he⟩
  have hp := List.of_mem_filter htu
  have hany : s.timers.any (fun p => decide (p.1 ≤ t) && p.2 == u) = true :=
    List.any_eq_true.2 ⟨(ft, u), htm, by simp [hle]⟩
  rw [he] at hp
  rw [hany] at hp
  exact absurd hp (by simp)

/-- A pending removal timer that is not yet due survives firing. -/
lemma fireDue_timer_kept {t ft : Nat} {u : String} {s : TypingState}
    (htm : (ft, u) ∈ s.timers) (hgt : ¬ ft ≤ t) :
    (ft, u) ∈ (fireDue t s).timers :=
  List.mem_filter.2 ⟨htm, by simp [hgt]⟩

/-- The signal handler keeps every pending timer. -/
lemma onTypingSignal_timer_mem {selfId : String} {sig : Signal} {s : TypingState}
    {p : Nat × String} (h : p ∈ s.timers) :
    p ∈ (onTypingSignal selfId sig s).timers := by
  unfold onTypingSignal
  split
  · exact h
  · split
    · exact List.mem_append_left _ h
    · exact h

/-- A participant absent from the typing set stays absent across a signal
for a different participant. -/
lemma onTypingSignal_absent {selfId u : String} {sig : Signal} {s : TypingState}
    (hne : sig.uid ≠ u) (h : u ∉ s.typingUsers.map TypingUser.id) :
    u ∉ (onTypingSignal selfId sig s).typingUsers.map TypingUser.id := by
  unfold onTypingSignal
  split
  · exact h
  · split
    · simp only []
      split
      · exact h
      · intro hmem
        rw [List.map_append] at hmem
        rcases List.mem_append.1 hmem with hmem | hmem
        · exact h hmem
        · simp only [List.map_cons, List.map_nil, List.mem_singleton] at hmem
          exact hne hmem.symm
    · exact absent_filter h

/-- Once a removal timer for `u` due by the query time is pending (or `u`
is already absent), and no further signal concerns `u`, `u` is absent from
the typing set read at the query time. -/
lemma typingRun_absent (selfId u : String) :
    ∀ (rest : List Signal) (s : TypingState) (q : Nat),
    ((∃ ft, (ft, u) ∈ s.timers ∧ ft ≤ q) ∨ u ∉ s.typingUsers.map TypingUser.id) →
    (∀ r ∈ rest, r.uid ≠ u) →
    u ∉ (typingRun selfId s rest q).map TypingUser.id
  | [], s, q, hinv, _ => by
    show u ∉ (fireDue q s).typingUsers.map TypingUser.id
    rcases hinv with ⟨ft, htm, hle⟩ | habs
    · exact fireDue_removes_due htm hle
    · exact absent_filter habs
  | sig :: rest, s, q, hinv, hrest => by
    have hne : sig.uid ≠ u := hrest sig (List.mem_cons_self _ _)
    have hrest2 : ∀ r ∈ rest, r.uid ≠ u :=
      fun r hr => hrest r (List.mem_cons_of_mem _ hr)
    show u ∉ (typingRun selfId
        (onTypingSignal selfId sig (fireDue (sig.time - 1) s)) rest q).map TypingUser.id
    apply typingRun_absent selfId u rest _ q _ hrest2
    rcases hinv with ⟨ft, htm, hle⟩ | habs
    · by_cases hdue : ft ≤ sig.time - 1
      · right
        exact onTypingSignal_absent hne (fireDue_removes_due htm hdue)
      · left
        exact ⟨ft, onTypingSignal_timer_mem (fireDue_timer_kept htm hdue), hle⟩
    · right
      exact onTypingSignal_absent hne (absent_filter habs)

/-- Appending an entry with a fresh identifier preserves uniqueness. -/
lemma idsNodup_append_fresh {prev : List Message} {m : Message}
    (h : idsNodup prev) (hfresh : m.id ∉ prev.map Message.id) :
    idsNodup (prev ++ [m]) := by
  unfold idsNodup at *
  rw [List.map_append, List.nodup_append]
  refine ⟨h, by simp, ?_⟩
  intro s hs
  simp only [List.map_cons, List.map_nil, List.mem_singleton]
  intro he
  exact hfresh (he ▸ hs)

/-- An identifier occurring in a filtered list occurs in the list. -/
lemma mem_map_id_filter {l : List Message} {p : Message → Bool} {s : String}
    (h : s ∈ (l.filter p).map Message.id) : s ∈ l.map Message.id := by
  rcases List.mem_map.1 h with ⟨m, hm, he⟩
  exact List.mem_map.2 ⟨m, List.mem_of_mem_filter hm, he⟩

/-! ### Concrete sample data used by witnesses and counterexamples -/

/-- A sample authenticated sender. -/
def senderU : Sender :=
  { id := "u1", name := "Alice", username := "alice", avatar_url := "a.png" }

/-- A confirmed message with creation time 1. -/
def msgA : Message :=
  { id := "a", chat_id := "c1", sender_id := "u1", content := "x",
    type := MsgType.text, mood := Mood.neutral, created_at := 1, sender := none }

/-- A confirmed message with creation time 2. -/
def msgB : Message :=
  { id := "b", chat_id := "c1", sender_id := "u2", content := "y",
    type := MsgType.text, mood := Mood.neutral, created_at := 2, sender := none }

/-- The optimistic entry of a send of "hello" (identifier `temp-1`). -/
def tempHello : Message :=
  mkOptimisticMessage "c1" senderU "hello" MsgType.text Mood.neutral "1" 5

/-- The server-confirmed row of that send. -/
def confHello : Message :=
  { id := "m1", chat_id := "c1", sender_id := "u1", content := "hello",
    type := MsgType.text, mood := Mood.neutral, created_at := 6,
    sender := some senderU }

/-- The entry of the send after failure re-tagging. -/
def failedHello : Message :=
  { tempHello with
    id := "failed-temp-1",
    content := "❌ Failed to send: hello" }

/-- The same entry while the automatic retry is in flight. -/
def retryingHello : Message :=
  { tempHello with
    id := "failed-temp-1",
    content := "🔄 Retrying: hello" }

/-- The same entry after the automatic retry also failed. -/
def permFailedHello : Message :=
  { tempHello with
    id := "failed-temp-1",
    content := "💀 Failed permanently: hello" }

/-- The server row returned by a successful (retried) insert of the send. -/
def rowHello : ServerRow :=
  { id := "m1", content := "hello", created_at := 6, sender_id := "u1",
    type := MsgType.text, mood := Mood.neutral }

/-! ### The claims -/

/-- C1: at every instant the visible list of an open conversation has
pairwise-distinct identifiers and never shows both a provisional
(`temp-` prefixed) entry and its server-confirmed counterpart for the
same send. Each mutating operation — the optimistic append of
`sendMessage`, the success reconciliation, the failure re-tagging, and
the realtime insert merge — preserves identifier uniqueness (the append,
reconciliation and re-tag under the freshness of their locally-generated
or server-assigned identifier, the merge unconditionally); after a merge
no provisional duplicate of the merged row remains visible; and the two
interleavings of a send's direct reply with the push notification for
the same row produce the same list, holding exactly one representative
of the send (the confirmed row) and no entry under the provisional
identifier. -/
theorem claim1_visible_list_invariant :
    (∀ chatId user content typ mood nonce now prev,
       idsNodup prev → mkOptimisticId nonce ∉ prev.map Message.id →
       idsNodup (sendMessageStart chatId user content typ mood nonce now prev).1) ∧
    (∀ (oid : String) (confirmed : Message) (prev : List Message),
       idsNodup prev →
       (confirmed.id ∉ prev.map Message.id ∨ oid ∉ prev.map Message.id) →
       idsNodup (reconcileSuccess oid confirmed prev)) ∧
    (∀ (oid c : String) (typ : MsgType) (mood : Mood) (err : String)
       (prev : List Message),
       idsNodup prev →
       (failedId oid ∉ prev.map Message.id ∨ oid ∉ prev.map Message.id) →
       idsNodup (sendFailure oid c typ mood err prev).1) ∧
    (∀ (incoming : Message) (prev : List Message),
       idsNodup prev → idsNodup (mergeRealtimeInsert incoming prev)) ∧
    (∀ (incoming : Message) (prev : List Message),
       strBeginsWith incoming.id "temp-" = false →
       ∀ m ∈ mergeRealtimeInsert incoming prev,
         ¬(strBeginsWith m.id "temp-" = true ∧ m.content = incoming.content ∧
            m.sender_id = incoming.sender_id)) ∧
    (∀ (l₀ : List Message) (tempM confirmed : Message),
       strBeginsWith tempM.id "temp-" = true →
       tempM.content = confirmed.content →
       tempM.sender_id = confirmed.sender_id →
       strBeginsWith confirmed.id "temp-" = false →
       tempM.id ∉ l₀.map Message.id →
       confirmed.id ∉ l₀.map Message.id →
       mergeRealtimeInsert confirmed (reconcileSuccess tempM.id confirmed (l₀ ++ [tempM]))
           = reconcileSuccess tempM.id confirmed
               (mergeRealtimeInsert confirmed (l₀ ++ [tempM])) ∧
       ((mergeRealtimeInsert confirmed
           (reconcileSuccess tempM.id confirmed (l₀ ++ [tempM]))).map Message.id).count
           confirmed.id = 1 ∧
       tempM.id ∉ (mergeRealtimeInsert confirmed
           (reconcileSuccess tempM.id confirmed (l₀ ++ [tempM]))).map Message.id) := by
  refine ⟨?_, ?_, ?_, ?_, ?_, ?_⟩
  · intro chatId user content typ mood nonce now prev h hfresh
    cases chatId with
    | none => cases user <;> exact h
    | some cid =>
      cases user with
      | none => exact h
      | some u =>
        simp only [sendMessageStart]
        split
        · exact h
        · exact idsNodup_append_fresh h hfresh
  · intro oid confirmed prev h hcase
    unfold reconcileSuccess
    rcases hcase with hfresh | habs
    · exact idsNodup_map_replace prev oid (fun _ => confirmed) confirmed.id
        (fun _ => rfl) h hfresh
    · rw [map_replace_eq_self prev oid _ habs]
      exact h
  · intro oid c typ mood err prev h hcase
    show idsNodup (markSendFailed oid c prev)
    unfold markSendFailed
    rcases hcase with hfresh | habs
    · exact idsNodup_map_replace prev oid _ (failedId oid) (fun _ => rfl) h hfresh
    · rw [map_replace_eq_self prev oid _ habs]
      exact h
  · intro incoming prev h
    exact idsNodup_mergeRealtimeInsert incoming prev h
  · intro incoming prev hinc m hm hcon
    have hfalse := mergeRealtimeInsert_no_provisional hinc prev m hm
    rcases hcon with ⟨h1, h2, h3⟩
    rw [matchesProvisional, h1, h2, h3] at hfalse
    simp at hfalse
  · intro l₀ tempM confirmed htemp hcontent hsender hconf htfresh hcfresh
    obtain ⟨he1, he2⟩ :=
      interleaving_eq l₀ tempM confirmed htemp hcontent hsender hconf htfresh hcfresh
    have hidne : tempM.id ≠ confirmed.id := by
      intro he
      rw [← he] at hconf
      rw [htemp] at hconf
      exact absurd hconf (by simp)
    refine ⟨he1.trans he2.symm, ?_, ?_⟩
    · rw [he1, List.map_append, List.count_append]
      have hzero : ((l₀.filter
          (fun msg => ! matchesProvisional confirmed msg)).map Message.id).count
          confirmed.id = 0 := by
        apply List.count_eq_zero.2
        intro hmem
        exact hcfresh (mem_map_id_filter hmem)
      rw [hzero]
      simp
    · rw [he1, List.map_append]
      intro hmem
      rcases List.mem_append.1 hmem with hmem | hmem
      · exact htfresh (mem_map_id_filter hmem)
      · simp only [List.map_cons, List.map_nil, List.mem_singleton] at hmem
        exact hidne hmem

/-- Witness for C1: every conjunct applied at concrete inputs. -/
theorem claim1_visible_list_invariant_witness :
    idsNodup (sendMessageStart (some "c1") (some senderU) "hello" MsgType.text
      Mood.neutral "9" 7 [msgA]).1 ∧
    idsNodup (reconcileSuccess "temp-1" confHello [tempHello]) ∧
    idsNodup (sendFailure "temp-1" "hello" MsgType.text Mood.neutral
      "Message send timeout" [tempHello]).1 ∧
    idsNodup (mergeRealtimeInsert confHello [msgA]) ∧
    ¬(strBeginsWith confHello.id "temp-" = true ∧ confHello.content = confHello.content ∧
       confHello.sender_id = confHello.sender_id) ∧
    mergeRealtimeInsert confHello
        (reconcileSuccess tempHello.id confHello ([msgA] ++ [tempHello]))
      = reconcileSuccess tempHello.id confHello
          (mergeRealtimeInsert confHello ([msgA] ++ [tempHello])) :=
  ⟨claim1_visible_list_invariant.1 (some "c1") (some senderU) "hello" MsgType.text
      Mood.neutral "9" 7 [msgA] (by decide) (by decide),
   claim1_visible_list_invariant.2.1 "temp-1" confHello [tempHello] (by decide)
      (Or.inl (by decide)),
   claim1_visible_list_invariant.2.2.1 "temp-1" "hello" MsgType.text Mood.neutral
      "Message send timeout" [tempHello] (by decide) (Or.inl (by decide)),
   claim1_visible_list_invariant.2.2.2.1 confHello [msgA] (by decide),
   claim1_visible_list_invariant.2.2.2.2.1 confHello [tempHello] (by decide) confHello
      (by decide),
   (claim1_visible_list_invariant.2.2.2.2.2 [msgA] tempHello confHello (by decide)
      (by decide) (by decide) (by decide) (by decide) (by decide)).1⟩

/-- C2 as stated is false: the merge appends the incoming row, so two
notifications with ascending timestamps merged in the reversed arrival
order leave the list in arrival order, not sorted by creation time. -/
theorem claim2_counterexample : ¬ timeSorted (mergeAll [msgB, msgA] []) := by decide

/-- C2 amended: merging remote inserts whose timestamps ascend, in an
arrival order that coincides with the timestamp order, into a time-sorted
list all of whose entries are older, yields a time-sorted list. -/
theorem claim2_sorted_arrival (ms l : List Message)
    (hms : ms.Pairwise (fun a b => a.created_at ≤ b.created_at))
    (hl : timeSorted l)
    (hlm : ∀ a ∈ l, ∀ m ∈ ms, a.created_at ≤ m.created_at) :
    timeSorted (mergeAll ms l) :=
  timeSorted_mergeAll ms l hl hlm hms

/-- Witness for the amended C2. -/
theorem claim2_sorted_arrival_witness :
    ([msgA, msgB].Pairwise (fun a b => a.created_at ≤ b.created_at)) ∧
    timeSorted (mergeAll [msgA, msgB] []) :=
  ⟨by decide, claim2_sorted_arrival [msgA, msgB] [] (by decide) (by decide) (by decide)⟩

/-- C3 as stated is false: a create failure whose error message does not
contain `'timeout'` (an ordinary network error, e.g. a failed fetch)
schedules no automatic retry. -/
theorem claim3_counterexample :
    (sendFailure "temp-1" "hello" MsgType.text Mood.neutral
       "TypeError: Failed to fetch" [tempHello]).2 = none := by decide

/-- C3 amended: on every create failure the provisional entry's content is
rewritten with the failure marker prefix (and the entry re-tagged under the
`failed-` identifier), other entries untouched; the single automatic
retry — reusing the same content, kind and mood, after the fixed
2000 ms delay — is scheduled exactly when the error message contains
`'timeout'`. -/
theorem claim3_retry_policy (oid c : String) (typ : MsgType) (mood : Mood)
    (err : String) (prev : List Message) (i : Nat) (m : Message)
    (hi : prev[i]? = some m) (hid : m.id = oid) :
    (sendFailure oid c typ mood err prev).1[i]? =
      some { m with
        id := failedId oid,
        content := "❌ Failed to send: " ++ c,
        type := MsgType.text } ∧
    (∀ (j : Nat) (mj : Message), prev[j]? = some mj → mj.id ≠ oid →
       (sendFailure oid c typ mood err prev).1[j]? = some mj) ∧
    ((sendFailure oid c typ mood err prev).2 =
        some ⟨c, typ, mood, oid, 2000⟩ ↔ strIncludes err "timeout" = true) := by
  refine ⟨?_, ?_, ?_⟩
  · show (markSendFailed oid c prev)[i]? = _
    unfold markSendFailed
    rw [List.getElem?_map, hi]
    simp [hid]
  · intro j mj hj hne
    show (markSendFailed oid c prev)[j]? = _
    unfold markSendFailed
    rw [List.getElem?_map, hj]
    simp [hne]
  · show (if strIncludes err "timeout" then some _ else none) = _ ↔ _
    constructor
    · intro hsome
      by_contra hfalse
      rw [if_neg] at hsome
      · exact Option.noConfusion hsome
      · exact fun ht => hfalse ht
    · intro ht
      rw [if_pos ht]
      rfl

/-- Witness for the amended C3. -/
theorem claim3_retry_policy_witness :
    ([tempHello][0]? = some tempHello) ∧
    (sendFailure "temp-1" "hello" MsgType.text Mood.neutral
       "Message send timeout" [tempHello]).1[0]? =
      some { tempHello with
        id := failedId "temp-1",
        content := "❌ Failed to send: " ++ "hello",
        type := MsgType.text } :=
  ⟨by decide,
   (claim3_retry_policy "temp-1" "hello" MsgType.text Mood.neutral
      "Message send timeout" [tempHello] 0 tempHello (by decide) (by decide)).1⟩

/-- C4: when the automatic retry also fails, the entry's content is
rewritten with the permanent-failure marker (in place, other entries
untouched) and the retry failure handler schedules no further automatic
retry. -/
theorem claim4_permanent_failure (fid c : String) (prev : List Message)
    (i : Nat) (m : Message) (hi : prev[i]? = some m) (hid : m.id = fid) :
    (retryFailure fid c prev).1[i]? =
      some { m with content := "💀 Failed permanently: " ++ c } ∧
    (∀ (j : Nat) (mj : Message), prev[j]? = some mj → mj.id ≠ fid →
       (retryFailure fid c prev).1[j]? = some mj) ∧
    (retryFailure fid c prev).2 = none := by
  refine ⟨?_, ?_, rfl⟩
  · show (prev.map _)[i]? = _
    rw [List.getElem?_map, hi]
    simp [hid]
  · intro j mj hj hne
    show (prev.map _)[j]? = _
    rw [List.getElem?_map, hj]
    simp [hne]

/-- Witness for C4. -/
theorem claim4_permanent_failure_witness :
    (retryFailure "failed-temp-1" "hello" [retryingHello]).1[0]? =
      some { retryingHello with content := "💀 Failed permanently: " ++ "hello" } ∧
    (retryFailure "failed-temp-1" "hello" [retryingHello]).2 = none :=
  ⟨(claim4_permanent_failure "failed-temp-1" "hello" [retryingHello] 0 retryingHello
      (by decide) (by decide)).1,
   (claim4_permanent_failure "failed-temp-1" "hello" [retryingHello] 0 retryingHello
      (by decide) (by decide)).2.2⟩

/-- C5: when the automatic retry succeeds, the failed entry is replaced in
place by the confirmed row: the entry at the failed entry's position
becomes the row carrying the server-assigned identifier and the content
echoed by the server (the original resubmitted content), every other
entry is untouched, and the list length is unchanged. -/
theorem claim5_retry_success (fid chatId c : String) (row : ServerRow)
    (u : Sender) (prev : List Message) (i : Nat) (m : Message)
    (hi : prev[i]? = some m) (hid : m.id = fid) (hecho : row.content = c) :
    (retrySuccess fid (confirmedFromRow chatId row u) prev)[i]? =
      some (confirmedFromRow chatId row u) ∧
    (confirmedFromRow chatId row u).id = row.id ∧
    (confirmedFromRow chatId row u).content = c ∧
    (∀ (j : Nat) (mj : Message), prev[j]? = some mj → mj.id ≠ fid →
       (retrySuccess fid (confirmedFromRow chatId row u) prev)[j]? = some mj) ∧
    (retrySuccess fid (confirmedFromRow chatId row u) prev).length = prev.length := by
  refine ⟨?_, rfl, hecho, ?_, by simp [retrySuccess]⟩
  · unfold retrySuccess
    rw [List.getElem?_map, hi]
    simp [hid]
  · intro j mj hj hne
    unfold retrySuccess
    rw [List.getElem?_map, hj]
    simp [hne]

/-- Witness for C5. -/
theorem claim5_retry_success_witness :
    (retrySuccess "failed-temp-1" (confirmedFromRow "c1" rowHello senderU)
       [failedHello])[0]? = some (confirmedFromRow "c1" rowHello senderU) ∧
    (confirmedFromRow "c1" rowHello senderU).content = "hello" :=
  ⟨(claim5_retry_success "failed-temp-1" "c1" "hello" rowHello senderU
      [failedHello] 0 failedHello (by decide) (by decide) (by decide)).1,
   (claim5_retry_success "failed-temp-1" "c1" "hello" rowHello senderU
      [failedHello] 0 failedHello (by decide) (by decide) (by decide)).2.2.1⟩

/-- C6 as stated is false: when the list holds, besides the row whose
identifier is already present, a provisional entry from a *second* send
of the same content by the same sender, re-applying the merge removes
that provisional entry — the list changes. -/
theorem claim6_counterexample :
    confHello.id ∈ ([confHello, tempHello].map Message.id) ∧
    mergeRealtimeInsert confHello [confHello, tempHello] ≠ [confHello, tempHello] := by
  decide

/-- C6 amended: for a non-provisional incoming row, the merge is a no-op
whenever the row's identifier is already present and the list holds no
provisional entry with the row's sender and content; in particular
applying the merge twice in a row equals applying it once. -/
theorem claim6_merge_idempotent (incoming : Message) (prev : List Message)
    (htemp : strBeginsWith incoming.id "temp-" = false) :
    ((incoming.id ∈ prev.map Message.id →
       (∀ m ∈ prev, matchesProvisional incoming m = false) →
       mergeRealtimeInsert incoming prev = prev)) ∧
    mergeRealtimeInsert incoming (mergeRealtimeInsert incoming prev)
      = mergeRealtimeInsert incoming prev := by
  refine ⟨?_, ?_⟩
  · intro hmem hnm
    exact mergeRealtimeInsert_eq_self hnm hmem
  · exact mergeRealtimeInsert_eq_self
      (mergeRealtimeInsert_no_provisional htemp prev)
      (mem_id_mergeRealtimeInsert incoming prev)

/-- Witness for the amended C6. -/
theorem claim6_merge_idempotent_witness :
    mergeRealtimeInsert confHello [confHello, msgA] = [confHello, msgA] ∧
    mergeRealtimeInsert confHello (mergeRealtimeInsert confHello [tempHello, msgA])
      = mergeRealtimeInsert confHello [tempHello, msgA] :=
  ⟨(claim6_merge_idempotent confHello [confHello, msgA] (by decide)).1 (by decide)
      (by decide),
   (claim6_merge_idempotent confHello [tempHello, msgA] (by decide)).2⟩

/-- A row of conversation `c1`, as delivered by a query issued against
`c1` before the user switched to conversation `c2`. -/
def staleRow : Message :=
  { id := "s1", chat_id := "c1", sender_id := "u1", content := "old chat message",
    type := MsgType.text, mood := Mood.neutral, created_at := 3, sender := none }

/-- C7 fails on the code: the fetch completion handler installs the
response rows unconditionally — it never compares the conversation the
query was issued against with the currently open one — so a stale
response for conversation `c1` arriving after the switch to `c2` puts a
message of `c1` into `c2`'s visible list. -/
theorem claim7_stale_leak :
    staleRow.chat_id ≠ "c2" ∧ staleRow ∈ applyFetchResponse [staleRow] := by decide

/-- C8 fails on the code: for a failed entry (whose actual content is
"❌ Failed to send: hello", exactly as the failure re-tagging writes it)
the manual retry's anchored prefix rewrite never matches — the emoji
precedes the words — so the full marker text is re-submitted as the new
content; and a permanently-failed entry ("💀 Failed permanently: hello")
fails the handler's `includes('Failed to send:')` guard, so it is not
retryable at all. -/
theorem claim8_manual_retry_bug :
    markSendFailed "temp-1" "hello" [tempHello] = [failedHello] ∧
    handleRetryMessage failedHello =
      some ⟨"❌ Failed to send: hello", MsgType.text, Mood.neutral⟩ ∧
    handleRetryMessage permFailedHello = none := by decide

/-- C9: a `typing=true` signal from another participant received at time
T installs a removal timer for T+3000; if no later signal concerns that
participant, the participant is absent from the typing set read at
T+3000. A `typing=false` signal from another participant removes the
participant immediately. -/
theorem claim9_typing_expiry (selfId : String) (s : TypingState) (sig : Signal)
    (rest : List Signal)
    (hself : sig.uid ≠ selfId) (htrue : sig.is_typing = true)
    (hrest : ∀ r ∈ rest, r.uid ≠ sig.uid) :
    sig.uid ∉ ((typingRun selfId (onTypingSignal selfId sig s) rest
        (sig.time + 3000)).map TypingUser.id) ∧
    (∀ (sig2 : Signal) (s2 : TypingState), sig2.is_typing = false →
       sig2.uid ≠ selfId →
       sig2.uid ∉ (onTypingSignal selfId sig2 s2).typingUsers.map TypingUser.id) := by
  constructor
  · apply typingRun_absent selfId sig.uid rest _ (sig.time + 3000) _ hrest
    left
    refine ⟨sig.time + 3000, ?_, le_refl _⟩
    unfold onTypingSignal
    rw [if_neg (by simp [hself])]
    rw [if_pos htrue]
    exact List.mem_append_right _ (List.mem_singleton.2 rfl)
  · intro sig2 s2 hfalse hne2
    unfold onTypingSignal
    rw [if_neg (by simp [hne2])]
    rw [if_neg (by simp [hfalse])]
    intro hmem
    rcases List.mem_map.1 hmem with ⟨tu, htu, he⟩
    have hp := List.of_mem_filter htu
    rw [he] at hp
    simp at hp

/-- Witness for C9. -/
theorem claim9_typing_expiry_witness :
    "u2" ∉ ((typingRun "me"
        (onTypingSignal "me" ⟨10, "u2", "Bob", "b.png", true⟩ ⟨[], []⟩)
        [⟨100, "u3", "Carol", "c.png", true⟩] (10 + 3000)).map TypingUser.id) :=
  (claim9_typing_expiry "me" ⟨[], []⟩ ⟨10, "u2", "Bob", "b.png", true⟩
    [⟨100, "u3", "Carol", "c.png", true⟩] (by decide) (by decide)
    (by decide)).1

/-- C10: with empty-after-trimming content, or no open conversation, or
no authenticated user, `sendMessage` returns before the optimistic
append: the visible list is unchanged and no create request is issued. -/
theorem claim10_send_guard (chatId : Option String) (user : Option Sender)
    (content : String) (typ : MsgType) (mood : Mood) (nonce : String)
    (now : Nat) (prev : List Message)
    (h : chatId = none ∨ user = none ∨ jsTrim content = "") :
    sendMessageStart chatId user content typ mood nonce now prev = (prev, false) := by
  rcases h with h | h | h
  · subst h
    cases user <;> rfl
  · subst h
    cases chatId <;> rfl
  · cases chatId with
    | none => cases user <;> rfl
    | some cid =>
      cases user with
      | none => rfl
      | some u => simp [sendMessageStart, h]

/-- Witness for C10: whitespace-only content. -/
theorem claim10_send_guard_witness :
    sendMessageStart (some "c1") (some senderU) "   " MsgType.text Mood.neutral
      "9" 7 [msgA] = ([msgA], false) :=
  claim10_send_guard (some "c1") (some senderU) "   " MsgType.text Mood.neutral
    "9" 7 [msgA] (Or.inr (Or.inr (by decide)))

end Chatbag
